import Mathlib

/-!
Verification development for gten_translator.py (GTEN Translator).

The program is a single-pass batch pipeline: Whisper produces time-stamped
translated segments, gTTS synthesizes English speech per segment, pydub
composes the clips onto a silent track of the original duration, and an SRT
subtitle file is written alongside.

Audio is embedded at millisecond granularity: a pydub `AudioSegment` is a
list of integer sample values, one per millisecond (pydub's `len`, slicing
and `silent` all operate in milliseconds).  `overlay` follows pydub's
`AudioSegment.overlay` (with default arguments): the overlaid clip is mixed
into the base by sample-wise addition (`audioop.add`, which saturates at the
16-bit sample bounds), the clip is truncated at the end of the base, and the
result always has the base's length.
-/


/-- Model of a pydub audio segment at millisecond granularity: one integer
sample value per millisecond of duration.  `List.length` is pydub's `len`
(duration in ms). -/
abbrev AudioSegment := List Int

/-- Model of `AudioSegment.silent(duration=d)`: `d` milliseconds of zero
samples (source line 146 and 185). -/
def AudioSegment.silent (d : Nat) : AudioSegment := List.replicate d (0 : Int)

/-- Sample mixing as performed by pydub overlay via `audioop.add` on 16-bit
samples: addition saturating at the signed 16-bit bounds. -/
def mixSample (a b : Int) : Int := max (-32768) (min 32767 (a + b))

/-- Model of `base.overlay(clip, position=pos)` (source line 188, pydub
semantics): `base[:pos]`, then the clip mixed sample-wise with the
corresponding region of `base`, then the rest of `base`.  The clip is cut
off at the end of the base, so the result has the base's length. -/
def overlay (base clip : AudioSegment) (pos : Nat) : AudioSegment :=
  base.take pos ++ List.zipWith mixSample (base.drop pos) clip
    ++ (base.drop pos).drop clip.length

/-- Model of the clip-fitting step (source lines 180-185): truncate the
synthesized clip when it is longer than the target duration, pad it with
trailing silence when shorter, leave it unchanged when equal. -/
def fit (clip : AudioSegment) (target : Nat) : AudioSegment :=
  if clip.length > target then clip.take target
  else if clip.length < target then
    clip ++ AudioSegment.silent (target - clip.length)
  else clip

/-- Decimal digit characters of a natural number, most significant first,
computed with structural fuel so that it reduces in the kernel; any fuel
above `n` gives the same digits. -/
def toDigitsAux : Nat → Nat → List Char
  | 0, _ => []
  | _fuel + 1, n =>
    if n < 10 then [Char.ofNat (48 + n)]
    else toDigitsAux _fuel (n / 10) ++ [Char.ofNat (48 + n % 10)]

/-- Decimal digit characters of a natural number, most significant first:
the model of Python's decimal rendering of a non-negative int. -/
def toDigits (n : Nat) : List Char := toDigitsAux (n + 1) n

/-- Model of Python `str(n)` for a non-negative integer. -/
def natRepr (n : Nat) : String := String.mk (toDigits n)

/-- Left-pad a digit list with the character 0 up to width `w`: the model of
Python's zero-padded format for a non-negative value. -/
def zfill (w : Nat) (l : List Char) : List Char :=
  List.replicate (w - l.length) '0' ++ l

/-- Model of the Python format spec 0-pad-to-width applied to an int: for a
negative value the sign occupies one column and the digits are padded to
width `w - 1`. -/
def pyZFill (w : Nat) (n : Int) : String :=
  if n < 0 then String.mk ('-' :: zfill (w - 1) (toDigits n.natAbs))
  else String.mk (zfill w (toDigits n.toNat))

/-- Model of `ms_to_srt_timestamp` (source lines 105-110).  Python `//` and
`%` are floor division and the matching non-negative remainder, i.e.
`Int.fdiv` and `Int.fmod`. -/
def ms_to_srt_timestamp (ms : Int) : String :=
  pyZFill 2 (ms.fdiv 3600000) ++ ":" ++ pyZFill 2 ((ms.fmod 3600000).fdiv 60000)
    ++ ":" ++ pyZFill 2 ((ms.fmod 60000).fdiv 1000) ++ "," ++ pyZFill 3 (ms.fmod 1000)

/-- Numeric value of a decimal digit character. -/
def digitVal (c : Char) : Nat := c.toNat - 48

/-- Accumulating decimal reader over a character list: fails on the first
non-digit character. -/
def readNatAux : Nat → List Char → Option Nat
  | acc, [] => some acc
  | acc, c :: cs => if c.isDigit then readNatAux (10 * acc + digitVal c) cs else none

/-- Read a non-empty all-digit character list as a natural number. -/
def readNat (l : List Char) : Option Nat :=
  match l with
  | [] => none
  | _ :: _ => readNatAux 0 l

/-- Inverse parse for SRT timestamps over the pattern
d+ colon dd colon dd comma ddd: hours are the leading digit run, then
exactly two minute digits, two second digits and three millisecond
digits. -/
def parseSrtChars (l : List Char) : Option Int :=
  match l.dropWhile Char.isDigit with
  | c1 :: m1 :: m2 :: c2 :: s1 :: s2 :: c3 :: x1 :: x2 :: x3 :: [] =>
    if (c1 == ':') && (c2 == ':') && (c3 == ',') && m1.isDigit && m2.isDigit
        && s1.isDigit && s2.isDigit && x1.isDigit && x2.isDigit && x3.isDigit then
      match readNat (l.takeWhile Char.isDigit) with
      | some h =>
        some (Int.ofNat (h * 3600000
          + (10 * digitVal m1 + digitVal m2) * 60000
          + (10 * digitVal s1 + digitVal s2) * 1000
          + (100 * digitVal x1 + 10 * digitVal x2 + digitVal x3)))
      | none => none
    else none
  | _ => none

/-- Inverse parse of an SRT timestamp string back to a millisecond value. -/
def parseSrt (s : String) : Option Int := parseSrtChars s.data

/-- Model of one raw Whisper segment: `start` and `end` in seconds (Whisper
reports them as numbers; rationals stand in for those values exactly at the
inputs of interest) and the translated `text`.  The field `stop` models the
dictionary key named end. -/
structure RawSegment where
  start : Rat
  stop : Rat
  text : String
deriving DecidableEq

/-- Model of Python `int(x)`: truncation toward zero of a number. -/
def pyTrunc (q : Rat) : Int := if q < 0 then -((-q).floor) else q.floor

/-- Model of Python `int(x * 1000)` on an exact rational `x`, written on the
numerator and denominator (`Int.tdiv` truncates toward zero) so that it
evaluates inside the kernel; `pyIntTimes1000_eq_pyTrunc` below proves it
equal to the direct transcription `pyTrunc (x * 1000)`. -/
def pyIntTimes1000 (q : Rat) : Int := (q.num * 1000).tdiv q.den

/-- Model of `start_ms = int(seg.get("start", 0) * 1000)` (source line 156). -/
def startMs (s : RawSegment) : Int := pyIntTimes1000 s.start

/-- Model of `end_ms = int(seg.get("end", 0) * 1000)` (source line 157). -/
def stopMs (s : RawSegment) : Int := pyIntTimes1000 s.stop

/-- Model of `target_duration = max(1, end_ms - start_ms)` (source line
181); the value is positive, so it is read back as a natural number of
milliseconds. -/
def targetDuration (s : RawSegment) : Nat := (max 1 (stopMs s - startMs s)).toNat

/-- Model of Python `str.strip()` with no arguments: remove leading and
trailing whitespace characters (space, tab, carriage return, newline);
written on the character list so that it evaluates in the kernel. -/
def pyStrip (s : String) : String :=
  String.mk (((s.data.dropWhile Char.isWhitespace).reverse.dropWhile
    Char.isWhitespace).reverse)

/-- Model of one SRT entry string
index newline start arrow end newline text newline (source line 193). -/
def mkSrtEntry (idx : Nat) (a b : Int) (txt : String) : String :=
  natRepr idx ++ "\n" ++ ms_to_srt_timestamp a ++ " --> " ++ ms_to_srt_timestamp b
    ++ "\n" ++ txt ++ "\n"

/-- Index carried by an SRT entry string: its first line read as a decimal
number. -/
def entryIndex (s : String) : Option Nat :=
  readNat (s.data.takeWhile (fun c => !(c == '\n')))

/-- External collaborators of the per-segment loop, as oracles fixed for one
run: whether `gTTS(...).save(segment_file)` succeeds for segment `i` with
the given text, what `AudioSegment.from_file(segment_file)` returns for
segment `i` (`none` models a decode failure), and whether the final export
and subtitle write succeed. -/
structure Oracles where
  synthSave : Nat → String → Bool
  decodeClip : Nat → Option AudioSegment
  exportOk : Bool
  writeOk : Bool

/-- State threaded through the per-segment loop (source lines 146-193):
the output track `final_audio`, the subtitle lines `srt_lines`, the files
currently existing in the temp directory, the `created_temp_files` list,
and whether the temp directory exists. -/
structure RunState where
  track : AudioSegment
  srt_lines : List String
  tempFiles : List String
  created_temp_files : List String
  tempDirExists : Bool
deriving DecidableEq

/-- Temp file name for segment `i` (source line 165). -/
def segmentFile (i : Nat) : String := "segment_" ++ natRepr i ++ ".mp3"

/-- Model of one iteration of the segment loop (source lines 155-193):
skip a segment whose trimmed text is empty; on synthesis success the temp
file exists and is recorded; on decode failure skip; otherwise fit the
clip, overlay it at `start_ms`, and append the SRT entry numbered
`len(srt_lines) + 1`. -/
def processSegment (oc : Oracles) (st : RunState) (p : Nat × RawSegment) : RunState :=
  let i := p.1
  let seg := p.2
  let english_text := (pyStrip seg.text)
  if english_text = "" then st
  else if oc.synthSave i english_text then
    let st1 := { st with tempFiles := st.tempFiles ++ [segmentFile i],
                         created_temp_files := st.created_temp_files ++ [segmentFile i] }
    match oc.decodeClip i with
    | none => st1
    | some seg_audio =>
      let fitted := fit seg_audio (targetDuration seg)
      { st1 with
          track := overlay st1.track fitted (startMs seg).toNat,
          srt_lines := st1.srt_lines
            ++ [mkSrtEntry (st1.srt_lines.length + 1) (startMs seg) (stopMs seg) english_text] }
  else st

/-- Initial loop state (source lines 146-150): a silent track of the
original audio's length, no subtitle lines, a fresh empty temp directory. -/
def initState (n : Nat) : RunState :=
  { track := AudioSegment.silent n, srt_lines := [], tempFiles := [],
    created_temp_files := [], tempDirExists := true }

/-- Fold of the segment loop over an enumerated segment list. -/
def processAll (oc : Oracles) (st : RunState) (l : List (Nat × RawSegment)) : RunState :=
  l.foldl (processSegment oc) st

/-- The whole processing loop over `enumerate(result["segments"])` starting
from the initial state for an original audio of `n` milliseconds. -/
def runSegments (oc : Oracles) (n : Nat) (segs : List RawSegment) : RunState :=
  processAll oc (initState n) segs.enum

/-- Model of the finally block (source lines 206-213): `safe_remove` every
recorded temp file, then remove the temp directory. -/
def cleanupState (st : RunState) : RunState :=
  { st with tempFiles := st.tempFiles.filter (fun f => !(st.created_temp_files.contains f)),
            tempDirExists := false }

/-- Outcome of the export phase (source lines 196-201): the subtitle write
is attempted only when the audio export succeeded, and either failure
escapes the try block as an error. -/
def exportResult (oc : Oracles) : Except String Unit :=
  if oc.exportOk then
    if oc.writeOk then Except.ok () else Except.error "srt write failed"
  else Except.error "audio export failed"

/-- Model of the processing and export phase of
`spanish_to_english_aligned_with_subs` (source lines 146-213): run the
loop, attempt the exports, and apply the cleanup of the finally block on
every path, returning the outcome together with the final state. -/
def spanish_to_english_run (oc : Oracles) (n : Nat) (segs : List RawSegment) :
    Except String Unit × RunState :=
  (exportResult oc, cleanupState (runSegments oc n segs))

/-- Decimal value of a digit-character list under a left fold, the reading
order of `readNatAux`. -/
def listVal (acc : Nat) (l : List Char) : Nat :=
  l.foldl (fun a c => 10 * a + digitVal c) acc

/-- Whether millisecond offset `k` of the output track lies inside the
overlay window of segment `s`. -/
def covers (s : RawSegment) (k : Nat) : Prop :=
  (startMs s).toNat ≤ k ∧ k < (startMs s).toNat + targetDuration s

instance covers.dec (s : RawSegment) (k : Nat) : Decidable (covers s k) :=
  inferInstanceAs (Decidable (_ ∧ _))

/-- The audio-visible part of the loop state: the output track and the
subtitle lines. -/
def audioPart (st : RunState) : AudioSegment × List String := (st.track, st.srt_lines)

/-- Subtitle lines are numbered consecutively from 1 in list order. -/
def IndexedOk (l : List String) : Prop :=
  ∀ j, j < l.length → entryIndex (l.getD j "") = some (j + 1)

/-- Model of the license text `GTEN_PROPRIETARY_LICENSE` (source lines
34-63), an f-string whose only interpolation is the current year. -/
def GTEN_PROPRIETARY_LICENSE (year : Nat) : String :=
  "GTEN Technologies — Proprietary License\n"
  ++ "Copyright (c) " ++ natRepr year ++ " GTEN Technologies. All Rights Reserved.\n"
  ++ "\n"
  ++ "This software (the \"Software\"), including all source code, documentation,\n"
  ++ "examples, and associated files, is the confidential and proprietary property\n"
  ++ "of GTEN Technologies (the \"Company\").\n"
  ++ "\n"
  ++ "PERMITTED USE:\n"
  ++ "  - The Software may be used internally by authorized employees or contractors\n"
  ++ "    of GTEN Technologies, subject to any internal policies and agreements.\n"
  ++ "\n"
  ++ "PROHIBITED ACTIONS (without express prior written permission from GTEN Technologies):\n"
  ++ "  - Copying, reproducing, sublicensing, distributing, or making the Software\n"
  ++ "    available to any third party.\n"
  ++ "  - Publishing, uploading, or otherwise making public any portion of the\n"
  ++ "    Software or its outputs (including derived works) outside GTEN Technologies.\n"
  ++ "  - Modifying, merging, reverse-engineering, decompiling, or creating derivative\n"
  ++ "    works for external distribution.\n"
  ++ "  - Use for commercial, academic, or public services outside explicit Company\n"
  ++ "    approval.\n"
  ++ "\n"
  ++ "DISCLAIMER:\n"
  ++ "  THE SOFTWARE IS PROVIDED \"AS IS\", WITHOUT WARRANTY OF ANY KIND, EXPRESS OR\n"
  ++ "  IMPLIED. THE COMPANY SHALL NOT BE LIABLE FOR ANY DAMAGES ARISING FROM THE USE\n"
  ++ "  OR INABILITY TO USE THE SOFTWARE. UNAUTHORIZED USE OR DISTRIBUTION MAY RESULT\n"
  ++ "  IN CIVIL OR CRIMINAL LIABILITY.\n"
  ++ "\n"
  ++ "If you are not an authorized representative of GTEN Technologies, stop now and\n"
  ++ "notify the software owner. All rights reserved.\n"

/-- Observable action of `main` (source lines 218-229): console output, a
file write (Python `open(path, \"w\")`, which truncates and overwrites), the
authorization prompt, process exit, or entering the translation pipeline. -/
inductive Event where
  | consoleOut (s : String)
  | fileWrite (path content : String)
  | promptConfirm
  | exitProgram (code : Nat)
  | startPipeline
deriving DecidableEq

/-- Model of `write_license_file` (source lines 65-69): write the license
text to the path LICENSE in the current directory, then print a
confirmation line. -/
def write_license_file (year : Nat) : List Event :=
  [Event.fileWrite "LICENSE" (GTEN_PROPRIETARY_LICENSE year),
   Event.consoleOut "✔ LICENSE written to ./LICENSE"]

/-- Event trace of `main` (source lines 218-229): banner, license file
write, license shown on console, authorization warning, confirmation
prompt; then either the pipeline (answer strips to I AGREE) or the refusal
message and exit code 1.  `answer` is the raw line read from the user. -/
def mainTrace (year : Nat) (answer : String) : List Event :=
  [Event.consoleOut "GTEN Translator banner"]
  ++ write_license_file year
  ++ [Event.consoleOut (GTEN_PROPRIETARY_LICENSE year),
      Event.consoleOut "To continue, you must confirm you are authorized to run this GTEN proprietary software.",
      Event.promptConfirm]
  ++ (if (pyStrip answer) = "I AGREE" then [Event.startPipeline]
      else [Event.consoleOut "Authorization not provided. Exiting.",
            Event.exitProgram 1])

/-- Apply one event to a file system, a map from path to content; only a
file write changes it, overwriting whatever was at the path. -/
def applyEvent (fs : String → Option String) : Event → (String → Option String)
  | Event.fileWrite p c => fun q => if q = p then some c else fs q
  | _ => fs

/-- File system resulting from a trace of events. -/
def runFsTrace (fs : String → Option String) (evs : List Event) : String → Option String :=
  evs.foldl applyEvent fs

/-- Whether an event writes a file. -/
def isFileWrite : Event → Bool
  | Event.fileWrite _ _ => true
  | _ => false

/-- The events of a trace that happen before the authorization prompt. -/
def preConfirm (evs : List Event) : List Event :=
  evs.takeWhile (fun e => !(e == Event.promptConfirm))

/-- Oracle under which every synthesis and decode succeeds, for concrete
witness runs. -/
def ocW : Oracles :=
  { synthSave := fun _ _ => true, decodeClip := fun _ => some [9, 9],
    exportOk := true, writeOk := true }

/-- Oracle whose decode fails for segment 0 only, for the C5 witness. -/
def ocFail : Oracles :=
  { synthSave := fun _ _ => true,
    decodeClip := fun j => if j = 0 then none else some [9, 9],
    exportOk := true, writeOk := true }

/-- Concrete segment list for the C3 witness: segments 1 and 3 have real
text, segment 2 is whitespace only. -/
def segsW : List RawSegment :=
  [{ start := 0, stop := 1, text := "a" },
   { start := 1, stop := 2, text := "  " },
   { start := 2, stop := 3, text := "b" }]

/-- The segment of the C4 scenario. -/
def helloSeg : RawSegment := { start := 1, stop := 3, text := "Hello" }

/-- Oracle of the C4 scenario: synthesis yields a 2500 ms clip. -/
def ocHello : Oracles :=
  { synthSave := fun _ _ => true,
    decodeClip := fun _ => some (List.replicate 2500 7),
    exportOk := true, writeOk := true }

example : ms_to_srt_timestamp 3661001 = "01:01:01,001" := by decide
example : parseSrt "01:01:01,001" = some 3661001 := by decide
example : ms_to_srt_timestamp 362400123 = "100:40:00,123" := by decide
example : fit [1, 2, 3] 2 = [1, 2] := by decide
example : fit [1] 3 = [1, 0, 0] := by decide
example : overlay (AudioSegment.silent 3) [5, 5, 5, 5] 1 = [0, 5, 5] := by decide

lemma ratFloor_eq_intFloor (q : Rat) : q.floor = ⌊q⌋ := by
  rw [Rat.floor_def', Rat.floor_def]

lemma pyTrunc_intCast_div_natCast (a : Int) (b : Nat) (hb : b ≠ 0) :
    pyTrunc ((a : Rat) / (b : Rat)) = a.tdiv b := by
  have hb0 : (0 : Rat) < (b : Rat) := by
    exact_mod_cast Nat.pos_of_ne_zero hb
  rcases le_or_lt 0 a with ha | ha
  · have hx : ¬ ((a : Rat) / b < 0) :=
      not_lt.mpr (div_nonneg (by exact_mod_cast ha) hb0.le)
    rw [pyTrunc, if_neg hx, ratFloor_eq_intFloor, Rat.floor_intCast_div_natCast]
    exact (Int.tdiv_eq_ediv ha (by exact_mod_cast Nat.zero_le b)).symm
  · have hx : (a : Rat) / b < 0 := div_neg_of_neg_of_pos (by exact_mod_cast ha) hb0
    have hneg : (-((a : Rat) / b)) = ((-a : Int) : Rat) / (b : Rat) := by
      push_cast
      ring
    rw [pyTrunc, if_pos hx, hneg, ratFloor_eq_intFloor, Rat.floor_intCast_div_natCast]
    have h1 : (-a).tdiv b = (-a) / (b : Int) :=
      Int.tdiv_eq_ediv (by omega) (by exact_mod_cast Nat.zero_le b)
    rw [Int.neg_tdiv] at h1
    omega

/-- The kernel-friendly form of the millisecond conversion agrees with the
literal transcription of `int(x * 1000)`. -/
theorem pyIntTimes1000_eq_pyTrunc (q : Rat) : pyIntTimes1000 q = pyTrunc (q * 1000) := by
  have hq : (q * 1000 : Rat) = ((q.num * 1000 : Int) : Rat) / (q.den : Rat) := by
    nth_rewrite 1 [← Rat.num_div_den q]
    push_cast
    rw [div_mul_eq_mul_div]
  rw [pyIntTimes1000, hq, pyTrunc_intCast_div_natCast _ _ q.den_nz]

example : startMs { start := 1, stop := 3, text := "Hello" } = 1000 := by decide
example : targetDuration { start := 1, stop := 3, text := "Hello" } = 2000 := by decide
example : entryIndex (mkSrtEntry 4 0 1 "x") = some 4 := by decide

lemma fit_length (clip : AudioSegment) (d : Nat) : (fit clip d).length = d := by
  unfold fit
  split
  · simp
    omega
  · split
    · simp [AudioSegment.silent]
      omega
    · omega

lemma overlay_length (base clip : AudioSegment) (pos : Nat) :
    (overlay base clip pos).length = base.length := by
  simp [overlay]
  omega

lemma overlay_getD_left (base clip : AudioSegment) (pos k : Nat) (hk : k < pos) :
    (overlay base clip pos).getD k 0 = base.getD k 0 := by
  by_cases hn : k < base.length
  · have h1 : k < (base.take pos).length := by
      simp
      omega
    have h2 : k < (base.take pos ++ List.zipWith mixSample (base.drop pos) clip).length := by
      simp
      omega
    rw [List.getD_eq_getElem?_getD, List.getD_eq_getElem?_getD, overlay,
      List.getElem?_append_left h2, List.getElem?_append_left h1,
      List.getElem?_take_of_lt hk]
  · have ho : (overlay base clip pos)[k]? = none :=
      List.getElem?_eq_none (by rw [overlay_length]; omega)
    have hb : base[k]? = (none : Option Int) := List.getElem?_eq_none (by omega)
    rw [List.getD_eq_getElem?_getD, List.getD_eq_getElem?_getD, ho, hb]

lemma overlay_getD_right (base clip : AudioSegment) (pos k : Nat)
    (hk : pos + clip.length ≤ k) :
    (overlay base clip pos).getD k 0 = base.getD k 0 := by
  by_cases hn : k < base.length
  · have hlen : (base.take pos ++ List.zipWith mixSample (base.drop pos) clip).length
        = pos + clip.length := by
      rw [List.length_append, List.length_take, List.length_zipWith, List.length_drop]
      omega
    have hidx : pos + clip.length + (k - (pos + clip.length)) = k := by omega
    rw [List.getD_eq_getElem?_getD, List.getD_eq_getElem?_getD, overlay,
      List.getElem?_append_right (by rw [hlen]; omega), hlen, List.drop_drop,
      List.getElem?_drop, hidx]
  · have ho : (overlay base clip pos)[k]? = none :=
      List.getElem?_eq_none (by rw [overlay_length]; omega)
    have hb : base[k]? = (none : Option Int) := List.getElem?_eq_none (by omega)
    rw [List.getD_eq_getElem?_getD, List.getD_eq_getElem?_getD, ho, hb]

lemma overlay_getD_mid (base clip : AudioSegment) (pos j : Nat)
    (h1 : pos + j < base.length) (h2 : j < clip.length) :
    (overlay base clip pos).getD (pos + j) 0
      = mixSample (base.getD (pos + j) 0) (clip.getD j 0) := by
  have htake : (base.take pos).length = pos := by
    simp
    omega
  have hmid : pos + j < (base.take pos ++ List.zipWith mixSample (base.drop pos) clip).length := by
    simp
    omega
  rw [List.getD_eq_getElem?_getD, overlay, List.getElem?_append_left hmid,
    List.getElem?_append_right (by omega), htake]
  have hj : pos + j - pos = j := by omega
  rw [hj, List.getElem?_zipWith, List.getElem?_drop,
    List.getElem?_eq_getElem h1, List.getElem?_eq_getElem h2]
  simp [List.getD_eq_getElem?_getD, List.getElem?_eq_getElem, h1, h2]

lemma silent_getD (n k : Nat) : (AudioSegment.silent n).getD k 0 = 0 := by
  rw [AudioSegment.silent, List.getD_eq_getElem?_getD, List.getElem?_replicate]
  split <;> rfl

lemma mixSample_zero_left (x : Int) (h1 : -32768 ≤ x) (h2 : x ≤ 32767) :
    mixSample 0 x = x := by
  rw [mixSample]
  omega

lemma isDigit_char_ofNat (d : Nat) (h : d < 10) : (Char.ofNat (48 + d)).isDigit = true := by
  interval_cases d <;> decide

lemma digitVal_char_ofNat (d : Nat) (h : d < 10) : digitVal (Char.ofNat (48 + d)) = d := by
  interval_cases d <;> decide

lemma toDigitsAux_digits (fuel : Nat) : ∀ n, n < fuel →
    ∀ c ∈ toDigitsAux fuel n, c.isDigit = true := by
  induction fuel with
  | zero => omega
  | succ f ih =>
    intro n hn c hc
    rw [toDigitsAux] at hc
    by_cases h10 : n < 10
    · rw [if_pos h10] at hc
      simp at hc
      subst hc
      exact isDigit_char_ofNat n h10
    · rw [if_neg h10] at hc
      rcases List.mem_append.mp hc with h | h
      · exact ih (n / 10) (by omega) c h
      · simp at h
        subst h
        exact isDigit_char_ofNat (n % 10) (by omega)

lemma toDigitsAux_ne_nil (fuel n : Nat) (hn : n < fuel) : toDigitsAux fuel n ≠ [] := by
  cases fuel with
  | zero => omega
  | succ f =>
    rw [toDigitsAux]
    split
    · simp
    · simp

lemma listVal_append (acc : Nat) (l1 l2 : List Char) :
    listVal acc (l1 ++ l2) = listVal (listVal acc l1) l2 := by
  simp [listVal]

lemma toDigitsAux_val (fuel : Nat) : ∀ n acc, n < fuel →
    listVal acc (toDigitsAux fuel n) = acc * 10 ^ (toDigitsAux fuel n).length + n := by
  induction fuel with
  | zero => omega
  | succ f ih =>
    intro n acc hn
    rw [toDigitsAux]
    by_cases h10 : n < 10
    · rw [if_pos h10]
      simp [listVal, digitVal_char_ofNat n h10]
      ring
    · rw [if_neg h10]
      rw [listVal_append, List.length_append, ih (n / 10) acc (by omega)]
      simp [listVal, digitVal_char_ofNat (n % 10) (by omega : n % 10 < 10)]
      rw [pow_succ]
      have hdm : 10 * (n / 10) + n % 10 = n := by omega
      have hring : 10 * (acc * 10 ^ (toDigitsAux f (n / 10)).length + n / 10) + n % 10
          = acc * (10 ^ (toDigitsAux f (n / 10)).length * 10) + (10 * (n / 10) + n % 10) := by
        ring
      rw [hring, hdm]

lemma toDigitsAux_len_le (fuel : Nat) : ∀ n k, n < fuel → n < 10 ^ k → 1 ≤ k →
    (toDigitsAux fuel n).length ≤ k := by
  induction fuel with
  | zero => omega
  | succ f ih =>
    intro n k hn hnk hk
    rw [toDigitsAux]
    by_cases h10 : n < 10
    · rw [if_pos h10]
      simpa using hk
    · rw [if_neg h10]
      have hk2 : 2 ≤ k := by
        by_contra hlt
        have hk1 : k = 1 := by omega
        subst hk1
        simp at hnk
        omega
      have hdiv : n / 10 < 10 ^ (k - 1) := by
        rw [Nat.div_lt_iff_lt_mul (by omega : 0 < 10)]
        calc n < 10 ^ k := hnk
        _ = 10 ^ (k - 1) * 10 := by
              rw [← pow_succ]
              congr 1
              omega
      have := ih (n / 10) (k - 1) (by omega) hdiv (by omega)
      simp
      omega

lemma toDigits_digits (n : Nat) : ∀ c ∈ toDigits n, c.isDigit = true :=
  toDigitsAux_digits (n + 1) n (by omega)

lemma toDigits_ne_nil (n : Nat) : toDigits n ≠ [] :=
  toDigitsAux_ne_nil (n + 1) n (by omega)

lemma toDigits_val (n acc : Nat) :
    listVal acc (toDigits n) = acc * 10 ^ (toDigits n).length + n :=
  toDigitsAux_val (n + 1) n acc (by omega)

lemma toDigits_len_le (n k : Nat) (h : n < 10 ^ k) (hk : 1 ≤ k) :
    (toDigits n).length ≤ k :=
  toDigitsAux_len_le (n + 1) n k (by omega) h hk

lemma zfill_digits (w : Nat) (l : List Char) (hl : ∀ c ∈ l, c.isDigit = true) :
    ∀ c ∈ zfill w l, c.isDigit = true := by
  intro c hc
  rcases List.mem_append.mp hc with h | h
  · rw [List.eq_of_mem_replicate h]
    decide
  · exact hl c h

lemma zfill_length (w : Nat) (l : List Char) : (zfill w l).length = max w l.length := by
  simp [zfill]
  omega

lemma listVal_replicate_zero (k : Nat) : listVal 0 (List.replicate k '0') = 0 := by
  induction k with
  | zero => rfl
  | succ m ih =>
    rw [List.replicate_succ]
    simpa [listVal, digitVal] using ih

lemma zfill_val (w n : Nat) : listVal 0 (zfill w (toDigits n)) = n := by
  rw [zfill, listVal_append, listVal_replicate_zero, toDigits_val]
  simp

lemma readNatAux_eq (l : List Char) : ∀ acc, (∀ c ∈ l, c.isDigit = true) →
    readNatAux acc l = some (listVal acc l) := by
  induction l with
  | nil => intro acc _; rfl
  | cons c cs ih =>
    intro acc hl
    rw [readNatAux, if_pos (hl c (by simp))]
    rw [ih (10 * acc + digitVal c) (fun x hx => hl x (by simp [hx]))]
    rfl

lemma readNat_eq (l : List Char) (hne : l ≠ []) (hl : ∀ c ∈ l, c.isDigit = true) :
    readNat l = some (listVal 0 l) := by
  match l, hne with
  | c :: cs, _ => exact readNatAux_eq (c :: cs) 0 hl

lemma readNat_zfill_toDigits (w n : Nat) : readNat (zfill w (toDigits n)) = some n := by
  have hne : zfill w (toDigits n) ≠ [] := by
    have h1 : (toDigits n).length ≠ 0 := by
      simpa [List.length_eq_zero] using toDigits_ne_nil n
    have h2 : (zfill w (toDigits n)).length ≠ 0 := by
      rw [zfill_length]
      omega
    simpa [List.length_eq_zero] using h2
  rw [readNat_eq _ hne (zfill_digits w _ (toDigits_digits n)), zfill_val]

lemma takeWhile_append_cons (p : Char → Bool) (ds : List Char) (c : Char)
    (rest : List Char) (hds : ∀ x ∈ ds, p x = true) (hc : p c = false) :
    (ds ++ c :: rest).takeWhile p = ds := by
  induction ds with
  | nil => simp [List.takeWhile_cons, hc]
  | cons d ds ih =>
    rw [List.cons_append, List.takeWhile_cons, hds d (by simp), if_pos rfl]
    rw [ih (fun x hx => hds x (by simp [hx]))]

lemma dropWhile_append_cons (p : Char → Bool) (ds : List Char) (c : Char)
    (rest : List Char) (hds : ∀ x ∈ ds, p x = true) (hc : p c = false) :
    (ds ++ c :: rest).dropWhile p = c :: rest := by
  induction ds with
  | nil => simp [List.dropWhile_cons, hc]
  | cons d ds ih =>
    rw [List.cons_append, List.dropWhile_cons, hds d (by simp), if_pos rfl]
    exact ih (fun x hx => hds x (by simp [hx]))

lemma two_digit_decomp (n : Nat) (h : n < 100) :
    ∃ c1 c2, zfill 2 (toDigits n) = [c1, c2] ∧ c1.isDigit = true ∧ c2.isDigit = true
      ∧ 10 * digitVal c1 + digitVal c2 = n := by
  have hlen : (zfill 2 (toDigits n)).length = 2 := by
    rw [zfill_length]
    have := toDigits_len_le n 2 (by omega) (by omega)
    omega
  rcases List.length_eq_two.mp hlen with ⟨c1, c2, hc⟩
  refine ⟨c1, c2, hc, ?_, ?_, ?_⟩
  · exact zfill_digits 2 _ (toDigits_digits n) c1 (by rw [hc]; simp)
  · exact zfill_digits 2 _ (toDigits_digits n) c2 (by rw [hc]; simp)
  · have := zfill_val 2 n
    rw [hc] at this
    simpa [listVal, List.foldl] using this

lemma three_digit_decomp (n : Nat) (h : n < 1000) :
    ∃ c1 c2 c3, zfill 3 (toDigits n) = [c1, c2, c3] ∧ c1.isDigit = true
      ∧ c2.isDigit = true ∧ c3.isDigit = true
      ∧ 100 * digitVal c1 + 10 * digitVal c2 + digitVal c3 = n := by
  have hlen : (zfill 3 (toDigits n)).length = 3 := by
    rw [zfill_length]
    have := toDigits_len_le n 3 (by omega) (by omega)
    omega
  rcases List.length_eq_three.mp hlen with ⟨c1, c2, c3, hc⟩
  refine ⟨c1, c2, c3, hc, ?_, ?_, ?_, ?_⟩
  · exact zfill_digits 3 _ (toDigits_digits n) c1 (by rw [hc]; simp)
  · exact zfill_digits 3 _ (toDigits_digits n) c2 (by rw [hc]; simp)
  · exact zfill_digits 3 _ (toDigits_digits n) c3 (by rw [hc]; simp)
  · have := zfill_val 3 n
    rw [hc] at this
    have hv : listVal 0 [c1, c2, c3]
        = 100 * digitVal c1 + 10 * digitVal c2 + digitVal c3 := by
      simp [listVal, List.foldl]
      ring
    omega

/-- Character-level form of a formatted timestamp for a non-negative
millisecond count. -/
lemma ms_to_srt_data (n : Nat) :
    (ms_to_srt_timestamp (n : Int)).data
      = zfill 2 (toDigits (n / 3600000))
        ++ ':' :: (zfill 2 (toDigits (n % 3600000 / 60000))
        ++ ':' :: (zfill 2 (toDigits (n % 60000 / 1000))
        ++ ',' :: zfill 3 (toDigits (n % 1000)))) := by
  have h1 : (n : Int).fdiv 3600000 = ((n / 3600000 : Nat) : Int) := by
    exact_mod_cast (Int.ofNat_fdiv n 3600000).symm
  have h2 : (n : Int).fmod 3600000 = ((n % 3600000 : Nat) : Int) := by
    exact_mod_cast (Int.ofNat_fmod n 3600000).symm
  have h3 : ((n % 3600000 : Nat) : Int).fdiv 60000 = ((n % 3600000 / 60000 : Nat) : Int) := by
    exact_mod_cast (Int.ofNat_fdiv (n % 3600000) 60000).symm
  have h4 : (n : Int).fmod 60000 = ((n % 60000 : Nat) : Int) := by
    exact_mod_cast (Int.ofNat_fmod n 60000).symm
  have h5 : ((n % 60000 : Nat) : Int).fdiv 1000 = ((n % 60000 / 1000 : Nat) : Int) := by
    exact_mod_cast (Int.ofNat_fdiv (n % 60000) 1000).symm
  have h6 : (n : Int).fmod 1000 = ((n % 1000 : Nat) : Int) := by
    exact_mod_cast (Int.ofNat_fmod n 1000).symm
  have hz : ∀ m : Nat, ∀ w : Nat, pyZFill w ((m : Nat) : Int) = String.mk (zfill w (toDigits m)) := by
    intro m w
    rw [pyZFill, if_neg (not_lt.mpr (Int.natCast_nonneg m)), Int.toNat_ofNat]
  rw [ms_to_srt_timestamp, h1, h2, h3, h4, h5, h6, hz, hz, hz, hz]
  simp [String.data_append]

lemma zfill_toDigits_ne_nil (w n : Nat) : zfill w (toDigits n) ≠ [] := by
  have h1 : (toDigits n).length ≠ 0 := by
    simpa [List.length_eq_zero] using toDigits_ne_nil n
  have h2 : (zfill w (toDigits n)).length ≠ 0 := by
    rw [zfill_length]
    omega
  simpa [List.length_eq_zero] using h2

lemma srt_takeWhile_eq (n : Nat) :
    ((ms_to_srt_timestamp (n : Int)).data).takeWhile Char.isDigit
      = zfill 2 (toDigits (n / 3600000)) := by
  rw [ms_to_srt_data]
  exact takeWhile_append_cons Char.isDigit _ ':' _
    (zfill_digits 2 _ (toDigits_digits _)) (by decide)

lemma parseSrtChars_shape (hd : List Char) (m1 m2 s1 s2 x1 x2 x3 : Char)
    (hne : hd ≠ []) (hhd : ∀ c ∈ hd, c.isDigit = true)
    (hm1 : m1.isDigit = true) (hm2 : m2.isDigit = true)
    (hs1 : s1.isDigit = true) (hs2 : s2.isDigit = true)
    (hx1 : x1.isDigit = true) (hx2 : x2.isDigit = true) (hx3 : x3.isDigit = true) :
    parseSrtChars (hd ++ ':' :: m1 :: m2 :: ':' :: s1 :: s2 :: ',' :: x1 :: x2 :: x3 :: [])
      = some (Int.ofNat (listVal 0 hd * 3600000
          + (10 * digitVal m1 + digitVal m2) * 60000
          + (10 * digitVal s1 + digitVal s2) * 1000
          + (100 * digitVal x1 + 10 * digitVal x2 + digitVal x3))) := by
  have htake := takeWhile_append_cons Char.isDigit hd ':'
    (m1 :: m2 :: ':' :: s1 :: s2 :: ',' :: x1 :: x2 :: x3 :: []) hhd (by decide)
  have hdrop := dropWhile_append_cons Char.isDigit hd ':'
    (m1 :: m2 :: ':' :: s1 :: s2 :: ',' :: x1 :: x2 :: x3 :: []) hhd (by decide)
  rw [parseSrtChars, hdrop, htake]
  simp only [hm1, hm2, hs1, hs2, hx1, hx2, hx3, beq_self_eq_true,
    Bool.and_true, Bool.true_and, if_true]
  rw [readNat_eq hd hne hhd]

lemma parseSrt_format_nat (n : Nat) :
    parseSrt (ms_to_srt_timestamp (n : Int)) = some (n : Int) := by
  obtain ⟨m1, m2, hm, hm1, hm2, hmv⟩ := two_digit_decomp (n % 3600000 / 60000) (by omega)
  obtain ⟨s1, s2, hs, hs1, hs2, hsv⟩ := two_digit_decomp (n % 60000 / 1000) (by omega)
  obtain ⟨x1, x2, x3, hx, hx1, hx2, hx3, hxv⟩ := three_digit_decomp (n % 1000) (by omega)
  rw [parseSrt, ms_to_srt_data, hm, hs, hx]
  have hre : zfill 2 (toDigits (n / 3600000))
        ++ ':' :: ([m1, m2] ++ ':' :: ([s1, s2] ++ ',' :: [x1, x2, x3]))
      = zfill 2 (toDigits (n / 3600000))
        ++ ':' :: m1 :: m2 :: ':' :: s1 :: s2 :: ',' :: x1 :: x2 :: x3 :: [] := by
    simp
  rw [hre, parseSrtChars_shape _ m1 m2 s1 s2 x1 x2 x3 (zfill_toDigits_ne_nil 2 _)
    (zfill_digits 2 _ (toDigits_digits _)) hm1 hm2 hs1 hs2 hx1 hx2 hx3]
  rw [zfill_val, hmv, hsv, hxv]
  have harith : n / 3600000 * 3600000 + n % 3600000 / 60000 * 60000
      + n % 60000 / 1000 * 1000 + n % 1000 = n := by
    omega
  rw [harith]
  rfl

lemma processSegment_empty (oc : Oracles) (st : RunState) (i : Nat) (seg : RawSegment)
    (h : (pyStrip seg.text) = "") : processSegment oc st (i, seg) = st := by
  simp [processSegment, h]

lemma processSegment_synthFail (oc : Oracles) (st : RunState) (i : Nat) (seg : RawSegment)
    (hne : ¬ (pyStrip seg.text) = "") (h : oc.synthSave i (pyStrip seg.text) = false) :
    processSegment oc st (i, seg) = st := by
  simp [processSegment, hne, h]

lemma processSegment_decodeFail (oc : Oracles) (st : RunState) (i : Nat) (seg : RawSegment)
    (hne : ¬ (pyStrip seg.text) = "") (hs : oc.synthSave i (pyStrip seg.text) = true)
    (hd : oc.decodeClip i = none) :
    processSegment oc st (i, seg)
      = { st with tempFiles := st.tempFiles ++ [segmentFile i],
                  created_temp_files := st.created_temp_files ++ [segmentFile i] } := by
  simp [processSegment, hne, hs, hd]

lemma processSegment_ok (oc : Oracles) (st : RunState) (i : Nat) (seg : RawSegment)
    (clip : AudioSegment) (hne : ¬ (pyStrip seg.text) = "")
    (hs : oc.synthSave i (pyStrip seg.text) = true) (hd : oc.decodeClip i = some clip) :
    processSegment oc st (i, seg)
      = { track := overlay st.track (fit clip (targetDuration seg)) (startMs seg).toNat,
          srt_lines := st.srt_lines
            ++ [mkSrtEntry (st.srt_lines.length + 1) (startMs seg) (stopMs seg) (pyStrip seg.text)],
          tempFiles := st.tempFiles ++ [segmentFile i],
          created_temp_files := st.created_temp_files ++ [segmentFile i],
          tempDirExists := st.tempDirExists } := by
  simp [processSegment, hne, hs, hd]

lemma processSegment_track_length (oc : Oracles) (st : RunState) (p : Nat × RawSegment) :
    (processSegment oc st p).track.length = st.track.length := by
  rcases p with ⟨i, seg⟩
  by_cases he : (pyStrip seg.text) = ""
  · rw [processSegment_empty oc st i seg he]
  · cases hs : oc.synthSave i (pyStrip seg.text) with
    | false => rw [processSegment_synthFail oc st i seg he hs]
    | true =>
      cases hd : oc.decodeClip i with
      | none => rw [processSegment_decodeFail oc st i seg he hs hd]
      | some clip =>
        rw [processSegment_ok oc st i seg clip he hs hd]
        exact overlay_length st.track (fit clip (targetDuration seg)) (startMs seg).toNat

lemma processSegment_dir (oc : Oracles) (st : RunState) (p : Nat × RawSegment) :
    (processSegment oc st p).tempDirExists = st.tempDirExists := by
  rcases p with ⟨i, seg⟩
  by_cases he : (pyStrip seg.text) = ""
  · rw [processSegment_empty oc st i seg he]
  · cases hs : oc.synthSave i (pyStrip seg.text) with
    | false => rw [processSegment_synthFail oc st i seg he hs]
    | true =>
      cases hd : oc.decodeClip i with
      | none => rw [processSegment_decodeFail oc st i seg he hs hd]
      | some clip => rw [processSegment_ok oc st i seg clip he hs hd]

lemma processSegment_files_inv (oc : Oracles) (st : RunState) (p : Nat × RawSegment)
    (h : st.tempFiles = st.created_temp_files) :
    (processSegment oc st p).tempFiles = (processSegment oc st p).created_temp_files := by
  rcases p with ⟨i, seg⟩
  by_cases he : (pyStrip seg.text) = ""
  · rw [processSegment_empty oc st i seg he]
    exact h
  · cases hs : oc.synthSave i (pyStrip seg.text) with
    | false =>
      rw [processSegment_synthFail oc st i seg he hs]
      exact h
    | true =>
      cases hd : oc.decodeClip i with
      | none =>
        rw [processSegment_decodeFail oc st i seg he hs hd]
        simp [h]
      | some clip =>
        rw [processSegment_ok oc st i seg clip he hs hd]
        simp [h]

lemma processSegment_audioPart_fail (oc : Oracles) (st : RunState) (i : Nat)
    (seg : RawSegment)
    (h : oc.synthSave i (pyStrip seg.text) = false ∨ oc.decodeClip i = none) :
    audioPart (processSegment oc st (i, seg)) = audioPart st := by
  by_cases he : (pyStrip seg.text) = ""
  · rw [processSegment_empty oc st i seg he]
  · rcases h with h | h
    · rw [processSegment_synthFail oc st i seg he h]
    · cases hs : oc.synthSave i (pyStrip seg.text) with
      | false => rw [processSegment_synthFail oc st i seg he hs]
      | true =>
        rw [processSegment_decodeFail oc st i seg he hs h]
        rfl

lemma processSegment_audioPart_congr (oc : Oracles) (st st' : RunState)
    (p : Nat × RawSegment) (h : audioPart st = audioPart st') :
    audioPart (processSegment oc st p) = audioPart (processSegment oc st' p) := by
  have ht : st.track = st'.track := congrArg Prod.fst h
  have hl : st.srt_lines = st'.srt_lines := congrArg Prod.snd h
  rcases p with ⟨i, seg⟩
  by_cases he : (pyStrip seg.text) = ""
  · rw [processSegment_empty oc st i seg he, processSegment_empty oc st' i seg he, h]
  · cases hs : oc.synthSave i (pyStrip seg.text) with
    | false =>
      rw [processSegment_synthFail oc st i seg he hs,
        processSegment_synthFail oc st' i seg he hs, h]
    | true =>
      cases hd : oc.decodeClip i with
      | none =>
        rw [processSegment_decodeFail oc st i seg he hs hd,
          processSegment_decodeFail oc st' i seg he hs hd]
        simpa [audioPart] using h
      | some clip =>
        rw [processSegment_ok oc st i seg clip he hs hd,
          processSegment_ok oc st' i seg clip he hs hd]
        simp [audioPart, ht, hl]

lemma processSegment_track_outside (oc : Oracles) (st : RunState) (i : Nat)
    (seg : RawSegment) (k : Nat) (h : ¬ covers seg k) :
    (processSegment oc st (i, seg)).track.getD k 0 = st.track.getD k 0 := by
  by_cases he : (pyStrip seg.text) = ""
  · rw [processSegment_empty oc st i seg he]
  · cases hs : oc.synthSave i (pyStrip seg.text) with
    | false => rw [processSegment_synthFail oc st i seg he hs]
    | true =>
      cases hd : oc.decodeClip i with
      | none => rw [processSegment_decodeFail oc st i seg he hs hd]
      | some clip =>
        rw [processSegment_ok oc st i seg clip he hs hd]
        rw [covers, not_and_or, not_le, not_lt] at h
        rcases h with h | h
        · exact overlay_getD_left st.track (fit clip (targetDuration seg))
            (startMs seg).toNat k h
        · refine overlay_getD_right st.track (fit clip (targetDuration seg))
            (startMs seg).toNat k ?_
          rw [fit_length]
          omega

lemma digit_not_newline (c : Char) (h : c.isDigit = true) : (!(c == '\n')) = true := by
  cases hc : c == '\n' with
  | false => simp
  | true =>
    have hceq : c = '\n' := eq_of_beq hc
    subst hceq
    exact absurd h (by decide)

lemma readNat_toDigits (n : Nat) : readNat (toDigits n) = some n := by
  rw [readNat_eq _ (toDigits_ne_nil n) (toDigits_digits n)]
  have h := toDigits_val n 0
  simp at h
  rw [h]

lemma entryIndex_mkSrtEntry (idx : Nat) (a b : Int) (t : String) :
    entryIndex (mkSrtEntry idx a b t) = some idx := by
  have hdata : (mkSrtEntry idx a b t).data
      = toDigits idx ++ '\n' :: ((ms_to_srt_timestamp a).data
          ++ (" --> ".data ++ ((ms_to_srt_timestamp b).data ++ '\n' :: (t.data ++ ['\n'])))) := by
    simp [mkSrtEntry, natRepr, String.data_append]
  rw [entryIndex, hdata,
    takeWhile_append_cons _ _ _ _
      (fun c hc => digit_not_newline c (toDigits_digits idx c hc)) (by decide),
    readNat_toDigits]

lemma IndexedOk_nil : IndexedOk [] := by
  intro j hj
  simp at hj

lemma IndexedOk_append (l : List String) (a b : Int) (t : String) (h : IndexedOk l) :
    IndexedOk (l ++ [mkSrtEntry (l.length + 1) a b t]) := by
  intro j hj
  rw [List.length_append] at hj
  simp at hj
  by_cases hjl : j < l.length
  · rw [List.getD_eq_getElem?_getD, List.getElem?_append_left hjl,
      ← List.getD_eq_getElem?_getD]
    exact h j hjl
  · have hj' : j = l.length := by omega
    subst hj'
    rw [List.getD_eq_getElem?_getD, List.getElem?_append_right (le_refl _)]
    simp [entryIndex_mkSrtEntry]

lemma processSegment_IndexedOk (oc : Oracles) (st : RunState) (p : Nat × RawSegment)
    (h : IndexedOk st.srt_lines) : IndexedOk (processSegment oc st p).srt_lines := by
  rcases p with ⟨i, seg⟩
  by_cases he : (pyStrip seg.text) = ""
  · rw [processSegment_empty oc st i seg he]
    exact h
  · cases hs : oc.synthSave i (pyStrip seg.text) with
    | false =>
      rw [processSegment_synthFail oc st i seg he hs]
      exact h
    | true =>
      cases hd : oc.decodeClip i with
      | none =>
        rw [processSegment_decodeFail oc st i seg he hs hd]
        exact h
      | some clip =>
        rw [processSegment_ok oc st i seg clip he hs hd]
        exact IndexedOk_append st.srt_lines (startMs seg) (stopMs seg) (pyStrip seg.text) h

lemma processSegment_srt_length (oc : Oracles) (st : RunState) (i : Nat)
    (seg : RawSegment) (hsy : ∀ j t, oc.synthSave j t = true)
    (hde : ∀ j, (oc.decodeClip j).isSome = true) :
    (processSegment oc st (i, seg)).srt_lines.length
      = st.srt_lines.length + (if (pyStrip seg.text) = "" then 0 else 1) := by
  by_cases he : (pyStrip seg.text) = ""
  · rw [processSegment_empty oc st i seg he, if_pos he]
    omega
  · rcases Option.isSome_iff_exists.mp (hde i) with ⟨clip, hd⟩
    rw [processSegment_ok oc st i seg clip he (hsy i (pyStrip seg.text)) hd, if_neg he]
    simp

lemma processAll_cons (oc : Oracles) (st : RunState) (p : Nat × RawSegment)
    (l : List (Nat × RawSegment)) :
    processAll oc st (p :: l) = processAll oc (processSegment oc st p) l := rfl

lemma processAll_track_length (oc : Oracles) (l : List (Nat × RawSegment)) :
    ∀ st : RunState, (processAll oc st l).track.length = st.track.length := by
  induction l with
  | nil => intro st; rfl
  | cons p l ih =>
    intro st
    rw [processAll_cons, ih, processSegment_track_length]

lemma processAll_dir (oc : Oracles) (l : List (Nat × RawSegment)) :
    ∀ st : RunState, (processAll oc st l).tempDirExists = st.tempDirExists := by
  induction l with
  | nil => intro st; rfl
  | cons p l ih =>
    intro st
    rw [processAll_cons, ih, processSegment_dir]

lemma processAll_files_inv (oc : Oracles) (l : List (Nat × RawSegment)) :
    ∀ st : RunState, st.tempFiles = st.created_temp_files →
      (processAll oc st l).tempFiles = (processAll oc st l).created_temp_files := by
  induction l with
  | nil => intro st h; exact h
  | cons p l ih =>
    intro st h
    rw [processAll_cons]
    exact ih _ (processSegment_files_inv oc st p h)

lemma processAll_audioPart_congr (oc : Oracles) (l : List (Nat × RawSegment)) :
    ∀ st st' : RunState, audioPart st = audioPart st' →
      audioPart (processAll oc st l) = audioPart (processAll oc st' l) := by
  induction l with
  | nil => intro st st' h; exact h
  | cons p l ih =>
    intro st st' h
    rw [processAll_cons, processAll_cons]
    exact ih _ _ (processSegment_audioPart_congr oc st st' p h)

lemma processAll_track_outside (oc : Oracles) (l : List (Nat × RawSegment)) (k : Nat) :
    ∀ st : RunState, (∀ p ∈ l, ¬ covers p.2 k) →
      (processAll oc st l).track.getD k 0 = st.track.getD k 0 := by
  induction l with
  | nil => intro st _; rfl
  | cons p l ih =>
    intro st h
    rw [processAll_cons, ih _ (fun q hq => h q (by simp [hq]))]
    exact processSegment_track_outside oc st p.1 p.2 k (h p (by simp))

lemma processAll_IndexedOk (oc : Oracles) (l : List (Nat × RawSegment)) :
    ∀ st : RunState, IndexedOk st.srt_lines →
      IndexedOk (processAll oc st l).srt_lines := by
  induction l with
  | nil => intro st h; exact h
  | cons p l ih =>
    intro st h
    rw [processAll_cons]
    exact ih _ (processSegment_IndexedOk oc st p h)

lemma processAll_srt_length (oc : Oracles) (l : List (Nat × RawSegment))
    (hsy : ∀ j t, oc.synthSave j t = true)
    (hde : ∀ j, (oc.decodeClip j).isSome = true) :
    ∀ st : RunState, (processAll oc st l).srt_lines.length
      = st.srt_lines.length + l.countP (fun p => !((pyStrip p.2.text) == "")) := by
  induction l with
  | nil => intro st; simp [processAll]
  | cons p l ih =>
    intro st
    rw [processAll_cons, ih, processSegment_srt_length oc st p.1 p.2 hsy hde,
      List.countP_cons]
    by_cases he : (pyStrip p.2.text) = ""
    · simp [he]
    · have hb : (!((pyStrip p.2.text) == "")) = true := by
        simpa using he
      simp [he, hb]
      omega

lemma countP_enumFrom (f : RawSegment → Bool) (l : List RawSegment) :
    ∀ k, (l.enumFrom k).countP (fun p => f p.2) = l.countP f := by
  induction l with
  | nil => intro k; rfl
  | cons s l ih =>
    intro k
    rw [List.enumFrom_cons, List.countP_cons, List.countP_cons, ih]

lemma countP_enum (f : RawSegment → Bool) (l : List RawSegment) :
    l.enum.countP (fun p => f p.2) = l.countP f :=
  countP_enumFrom f l 0

/-- C1 counterexample: overlaying does not overwrite.  A 3 ms silent track
receives the clip 5,5,5 at 0 and then the clip 7 at 1: under the claimed
overwrite semantics offset 1 would hold the later clip's sample 7, but
pydub's overlay mixes, so it holds 5 + 7 = 12. -/
theorem c1_overlay_overwrite_counterexample :
    overlay (overlay (AudioSegment.silent 3) [5, 5, 5] 0) [7] 1 = [5, 12, 5]
    ∧ (overlay (overlay (AudioSegment.silent 3) [5, 5, 5] 0) [7] 1).getD 1 0 ≠ 7 := by
  decide

/-- C1 amended: overlaying the fitted clip at start_ms mixes it sample-wise
(saturating addition) with the prior content of the window, leaves
everything outside the window unchanged, and where the prior content is
silence the window ends up holding exactly the clip's samples; overlapping
windows therefore hold the mix of both clips, not the later one alone. -/
theorem c1_overlay_mixes (base clip : AudioSegment) (pos : Nat) :
    (∀ j, j < clip.length → pos + j < base.length →
        (overlay base clip pos).getD (pos + j) 0
          = mixSample (base.getD (pos + j) 0) (clip.getD j 0))
    ∧ (∀ k, k < pos ∨ pos + clip.length ≤ k →
        (overlay base clip pos).getD k 0 = base.getD k 0)
    ∧ (∀ j, j < clip.length → pos + j < base.length →
        base.getD (pos + j) 0 = 0 → -32768 ≤ clip.getD j 0 → clip.getD j 0 ≤ 32767 →
        (overlay base clip pos).getD (pos + j) 0 = clip.getD j 0) := by
  refine ⟨fun j h1 h2 => overlay_getD_mid base clip pos j h2 h1,
    fun k hk => ?_, fun j h1 h2 hb hlo hhi => ?_⟩
  · rcases hk with hk | hk
    · exact overlay_getD_left base clip pos k hk
    · exact overlay_getD_right base clip pos k hk
  · rw [overlay_getD_mid base clip pos j h2 h1, hb, mixSample_zero_left _ hlo hhi]

/-- C1 amended, at a concrete input. -/
theorem c1_overlay_mixes_witness :
    (overlay (AudioSegment.silent 4) [9, 9] 1).getD (1 + 0) 0
      = mixSample ((AudioSegment.silent 4).getD (1 + 0) 0) (([9, 9] : AudioSegment).getD 0 0)
    ∧ (overlay (AudioSegment.silent 4) [9, 9] 1).getD 0 0 = (AudioSegment.silent 4).getD 0 0
    ∧ (overlay (AudioSegment.silent 4) [9, 9] 1).getD (1 + 1) 0
      = ([9, 9] : AudioSegment).getD 1 0 :=
  ⟨(c1_overlay_mixes (AudioSegment.silent 4) [9, 9] 1).1 0 (by decide) (by decide),
   (c1_overlay_mixes (AudioSegment.silent 4) [9, 9] 1).2.1 0 (Or.inl (by decide)),
   (c1_overlay_mixes (AudioSegment.silent 4) [9, 9] 1).2.2 1 (by decide) (by decide)
     (by decide) (by decide) (by decide)⟩

/-- C2: for every synthesized clip and target duration of at least 1 ms
(the pipeline always passes targetDuration, which is at least 1), the
fitted clip's length is exactly max 1 d whatever the clip's length was,
and re-fitting to the same duration changes nothing. -/
theorem c2_fit_length_idempotent (clip : AudioSegment) (d : Nat) (s : RawSegment)
    (hd : 1 ≤ d) :
    (fit clip d).length = max 1 d
    ∧ fit (fit clip d) d = fit clip d
    ∧ 1 ≤ targetDuration s := by
  refine ⟨?_, ?_, ?_⟩
  · rw [fit_length]
    omega
  · have h := fit_length clip d
    conv_lhs => rw [fit]
    rw [h, if_neg (by omega), if_neg (by omega)]
  · rw [targetDuration]
    omega

/-- C2 at a concrete input: a 3 ms clip fitted to 5 ms. -/
theorem c2_fit_witness :
    1 ≤ 5
    ∧ ((fit [1, 2, 3] 5).length = max 1 5
      ∧ fit (fit [1, 2, 3] 5) 5 = fit [1, 2, 3] 5
      ∧ 1 ≤ targetDuration { start := 0, stop := 0, text := "x" }) :=
  ⟨by decide, c2_fit_length_idempotent [1, 2, 3] 5 { start := 0, stop := 0, text := "x" }
    (by decide)⟩

/-- C7: a segment whose text trims to empty is dropped silently: the loop
state is returned unchanged (no synthesis, no temp file, no subtitle
entry, track untouched) and processing is just the processing of the
remaining segments. -/
theorem c7_empty_text_dropped (oc : Oracles) (st : RunState) (i : Nat)
    (seg : RawSegment) (rest : List (Nat × RawSegment)) (h : (pyStrip seg.text) = "") :
    processSegment oc st (i, seg) = st
    ∧ processAll oc st ((i, seg) :: rest) = processAll oc st rest := by
  refine ⟨processSegment_empty oc st i seg h, ?_⟩
  rw [processAll_cons, processSegment_empty oc st i seg h]

/-- C7 at a concrete input: a whitespace-only segment. -/
theorem c7_empty_text_witness :
    processSegment ocW (initState 5) (0, { start := 0, stop := 1, text := "   " })
      = initState 5
    ∧ processAll ocW (initState 5)
        [(0, { start := 0, stop := 1, text := "   " })]
      = processAll ocW (initState 5) [] :=
  c7_empty_text_dropped ocW (initState 5) 0 { start := 0, stop := 1, text := "   " } []
    (by decide)

/-- C9: the output track's length is an invariant: the track starts as
silence of the original audio's duration and every overlay keeps the base
track's length (pydub truncates a clip that would run past the end), so
the whole run ends with a track of exactly the original duration. -/
theorem c9_track_length_invariant (oc : Oracles) (n : Nat) (segs : List RawSegment) :
    (runSegments oc n segs).track.length = n
    ∧ ∀ (base clip : AudioSegment) (pos : Nat),
        (overlay base clip pos).length = base.length := by
  constructor
  · rw [runSegments, processAll_track_length]
    simp [initState, AudioSegment.silent]
  · exact overlay_length

/-- C5: a per-segment synthesis or decode failure is non-fatal: the failed
segment leaves the track and the subtitle list exactly as they were, the
loop goes on to process the remaining segments as if the segment were
absent, and when no other segment's window covers an offset of the failed
segment's window, that offset of the final track is still silence. -/
theorem c5_segment_failure_nonfatal (oc : Oracles) (st : RunState) (i : Nat)
    (seg : RawSegment) (rest : List (Nat × RawSegment)) (n k : Nat)
    (hfail : oc.synthSave i (pyStrip seg.text) = false ∨ oc.decodeClip i = none) :
    audioPart (processSegment oc st (i, seg)) = audioPart st
    ∧ audioPart (processAll oc st ((i, seg) :: rest)) = audioPart (processAll oc st rest)
    ∧ (covers seg k → (∀ p ∈ rest, ¬ covers p.2 k) →
        (processAll oc (initState n) ((i, seg) :: rest)).track.getD k 0 = 0) := by
  have h1 := processSegment_audioPart_fail oc st i seg hfail
  refine ⟨h1, ?_, ?_⟩
  · rw [processAll_cons]
    exact processAll_audioPart_congr oc rest _ _ h1
  · intro _ hrest
    rw [processAll_cons, processAll_track_outside oc rest k _ hrest]
    have h3 := processSegment_audioPart_fail oc (initState n) i seg hfail
    have h4 : (processSegment oc (initState n) (i, seg)).track = (initState n).track :=
      congrArg Prod.fst h3
    rw [h4]
    exact silent_getD n k

/-- C5 at a concrete input: decode fails for segment 0, segment 1 does not
overlap it, and offset 0 of the final track is silent. -/
theorem c5_segment_failure_witness :
    audioPart (processSegment ocFail (initState 4) (0, { start := 0, stop := 1, text := "hi" }))
      = audioPart (initState 4)
    ∧ (processAll ocFail (initState 4)
        [(0, { start := 0, stop := 1, text := "hi" }),
         (1, { start := 2, stop := 3, text := "yo" })]).track.getD 0 0 = 0 :=
  ⟨(c5_segment_failure_nonfatal ocFail (initState 4) 0
      { start := 0, stop := 1, text := "hi" }
      [(1, { start := 2, stop := 3, text := "yo" })] 4 0 (Or.inr (by decide))).1,
   (c5_segment_failure_nonfatal ocFail (initState 4) 0
      { start := 0, stop := 1, text := "hi" }
      [(1, { start := 2, stop := 3, text := "yo" })] 4 0 (Or.inr (by decide))).2.2
     (by decide) (by decide)⟩

/-- C3: the subtitle entries of a run are numbered consecutively 1, 2, ...
in list order whatever happens per segment (the index counts only appended
entries), and when every synthesis and decode succeeds the number of
entries is exactly the number of segments whose stripped text is
non-empty. -/
theorem c3_subtitle_indices (oc : Oracles) (n : Nat) (segs : List RawSegment) :
    (∀ j, j < (runSegments oc n segs).srt_lines.length →
        entryIndex ((runSegments oc n segs).srt_lines.getD j "") = some (j + 1))
    ∧ ((∀ i t, oc.synthSave i t = true) → (∀ i, (oc.decodeClip i).isSome = true) →
        (runSegments oc n segs).srt_lines.length
          = segs.countP (fun s => !(pyStrip s.text == ""))) := by
  constructor
  · exact processAll_IndexedOk oc segs.enum (initState n) IndexedOk_nil
  · intro hsy hde
    rw [runSegments, processAll_srt_length oc segs.enum hsy hde,
      countP_enum (fun s => !(pyStrip s.text == "")) segs]
    simp [initState]

/-- C3 at a concrete input: two retained segments, entries numbered 1, 2. -/
theorem c3_subtitle_indices_witness :
    (runSegments ocW 4 segsW).srt_lines.length = 2
    ∧ entryIndex ((runSegments ocW 4 segsW).srt_lines.getD 1 "") = some 2 :=
  ⟨(c3_subtitle_indices ocW 4 segsW).2 (fun _ _ => rfl) (fun _ => rfl),
   (c3_subtitle_indices ocW 4 segsW).1 1 (by decide)⟩

/-- C6: formatting any non-negative millisecond count gives a string of
the shape digits colon two digits colon two digits comma three digits with
the hour field zero-padded to at least two digits (more digits past 99
hours, no error), and the inverse parse recovers exactly the input. -/
theorem c6_timestamp_roundtrip (ms : Int) (h : 0 ≤ ms) :
    parseSrt (ms_to_srt_timestamp ms) = some ms
    ∧ 2 ≤ ((ms_to_srt_timestamp ms).data.takeWhile Char.isDigit).length := by
  obtain ⟨n, rfl⟩ : ∃ n : Nat, ms = (n : Int) := ⟨ms.toNat, (Int.toNat_of_nonneg h).symm⟩
  refine ⟨parseSrt_format_nat n, ?_⟩
  rw [srt_takeWhile_eq, zfill_length]
  omega

/-- C6 at a concrete input with more than 99 hours. -/
theorem c6_timestamp_roundtrip_witness :
    (0 : Int) ≤ 362400123
    ∧ (parseSrt (ms_to_srt_timestamp 362400123) = some 362400123
      ∧ 2 ≤ ((ms_to_srt_timestamp 362400123).data.takeWhile Char.isDigit).length) :=
  ⟨by decide, c6_timestamp_roundtrip 362400123 (by decide)⟩

/-- C4: for the segment start 1.0 s, end 3.0 s, text Hello whose
synthesized clip is 2500 ms long, the window converts to 1000..3000 ms by
truncation, the clip is truncated to exactly 2000 ms, it is overlaid at
offset 1000 of the output track (here 3000 ms long), and the single
subtitle entry is exactly the claimed string. -/
theorem c4_hello_scenario :
    startMs helloSeg = 1000
    ∧ stopMs helloSeg = 3000
    ∧ targetDuration helloSeg = 2000
    ∧ fit (List.replicate 2500 7) 2000 = List.replicate 2000 7
    ∧ (runSegments ocHello 3000 [helloSeg]).srt_lines
        = ["1\n00:00:01,000 --> 00:00:03,000\nHello\n"]
    ∧ (runSegments ocHello 3000 [helloSeg]).track
        = List.replicate 1000 0 ++ List.replicate 2000 7 := by
  have h1 : startMs helloSeg = 1000 := by decide
  have h2 : stopMs helloSeg = 3000 := by decide
  have h3 : targetDuration helloSeg = 2000 := by decide
  have hfit : fit (List.replicate 2500 (7 : Int)) 2000 = List.replicate 2000 (7 : Int) := by
    rw [fit, if_pos (by rw [List.length_replicate]; norm_num), List.take_replicate]
    have hmin : min 2000 2500 = 2000 := by norm_num
    rw [hmin]
  have hrun : runSegments ocHello 3000 [helloSeg]
      = processSegment ocHello (initState 3000) (0, helloSeg) := rfl
  have hok := processSegment_ok ocHello (initState 3000) 0 helloSeg
    (List.replicate 2500 7) (by decide) rfl rfl
  refine ⟨h1, h2, h3, hfit, ?_, ?_⟩
  · rw [hrun, hok]
    show [] ++ [mkSrtEntry (List.length [] + 1) (startMs helloSeg) (stopMs helloSeg)
      (pyStrip helloSeg.text)] = _
    rw [h1, h2]
    decide
  · rw [hrun, hok, h3, h1]
    show overlay (AudioSegment.silent 3000) (fit (List.replicate 2500 7) 2000)
      (Int.toNat 1000) = _
    rw [hfit]
    have htn : Int.toNat 1000 = 1000 := rfl
    rw [htn, overlay, AudioSegment.silent, List.take_replicate, List.drop_replicate]
    have hmin : min 1000 3000 = 1000 := by norm_num
    have hsub : 3000 - 1000 = 2000 := by norm_num
    rw [hmin, hsub, List.zipWith_replicate']
    have hmix : mixSample 0 7 = 7 := by decide
    rw [hmix, List.length_replicate, List.drop_replicate, Nat.sub_self,
      List.replicate_zero, List.append_nil]

/-- C8: whatever the oracles do (export success or failure included) and
whatever the segments are, after the finally block every temp file
recorded during the run is removed and the temp directory is gone, while
the outcome of the export phase is reported unchanged. -/
theorem c8_cleanup_all_paths (oc : Oracles) (n : Nat) (segs : List RawSegment) :
    (spanish_to_english_run oc n segs).2.tempFiles = []
    ∧ (spanish_to_english_run oc n segs).2.tempDirExists = false
    ∧ (spanish_to_english_run oc n segs).1 = exportResult oc := by
  refine ⟨?_, rfl, rfl⟩
  have hinv : (runSegments oc n segs).tempFiles
      = (runSegments oc n segs).created_temp_files :=
    processAll_files_inv oc segs.enum (initState n) rfl
  show ((runSegments oc n segs).tempFiles.filter
      (fun f => !((runSegments oc n segs).created_temp_files.contains f))) = []
  rw [List.filter_eq_nil_iff]
  intro f hf
  have hmem : f ∈ (runSegments oc n segs).created_temp_files := hinv ▸ hf
  have hc : (runSegments oc n segs).created_temp_files.contains f = true :=
    List.elem_eq_true_of_mem hmem
  simp [List.contains] at hc
  simp [hc]

/-- C10: on every invocation of main, the only file write before the
authorization prompt is the LICENSE write, that write overwrites whatever
any file system held at LICENSE with the current license text, the prompt
does occur, and a run whose answer does not strip to I AGREE still has the
LICENSE write as its only file write and ends with exit code 1. -/
theorem c10_license_written_before_confirm (year : Nat) (answer : String)
    (fs : String → Option String) :
    (preConfirm (mainTrace year answer)).filter isFileWrite
        = [Event.fileWrite "LICENSE" (GTEN_PROPRIETARY_LICENSE year)]
    ∧ runFsTrace fs (preConfirm (mainTrace year answer)) "LICENSE"
        = some (GTEN_PROPRIETARY_LICENSE year)
    ∧ Event.promptConfirm ∈ mainTrace year answer
    ∧ (¬ pyStrip answer = "I AGREE" →
        (mainTrace year answer).filter isFileWrite
            = [Event.fileWrite "LICENSE" (GTEN_PROPRIETARY_LICENSE year)]
        ∧ (mainTrace year answer).getLast? = some (Event.exitProgram 1)) := by
  refine ⟨rfl, rfl, ?_, ?_⟩
  · simp [mainTrace, write_license_file]
  · intro h
    constructor
    · simp [mainTrace, write_license_file, preConfirm, isFileWrite, h]
    · simp [mainTrace, write_license_file, h]

/-- C10 at a concrete input: year 2026, answer no, empty file system. -/
theorem c10_license_witness :
    (preConfirm (mainTrace 2026 "no")).filter isFileWrite
        = [Event.fileWrite "LICENSE" (GTEN_PROPRIETARY_LICENSE 2026)]
    ∧ runFsTrace (fun _ => none) (preConfirm (mainTrace 2026 "no")) "LICENSE"
        = some (GTEN_PROPRIETARY_LICENSE 2026)
    ∧ (mainTrace 2026 "no").filter isFileWrite
        = [Event.fileWrite "LICENSE" (GTEN_PROPRIETARY_LICENSE 2026)]
    ∧ (mainTrace 2026 "no").getLast? = some (Event.exitProgram 1) :=
  ⟨(c10_license_written_before_confirm 2026 "no" (fun _ => none)).1,
   (c10_license_written_before_confirm 2026 "no" (fun _ => none)).2.1,
   ((c10_license_written_before_confirm 2026 "no" (fun _ => none)).2.2.2 (by decide)).1,
   ((c10_license_written_before_confirm 2026 "no" (fun _ => none)).2.2.2 (by decide)).2⟩
